import Mathlib

/-!
# Verification of `proj1_pkg/src/paths/trajectories.py`

Shallow embedding of the trajectory classes of the Visual-Servoing
repository (`LinearTrajectory`, `CircularTrajectory`,
`PolygonalTrajectory`) and proofs of the specification claims about
them.  Machine floats are idealised as real numbers; the numpy
3-vectors become functions `Fin 3 → ℝ`.
-/

namespace VisualServoing

noncomputable section

/-- A 3-entry numpy array (position, velocity or waypoint offset). -/
abbrev Vec3 := Fin 3 → ℝ

/-- A 4-entry quaternion array `[qx, qy, qz, qw]`. -/
abbrev Quat := Fin 4 → ℝ

/-- The 7D array returned by `target_pose`, split into its position part
(first three entries) and orientation part (last four entries). -/
structure Pose where
  pos : Vec3
  ori : Quat

/-- The 6D twist returned by `target_velocity`, split into its linear
part (first three entries) and angular part (last three entries). -/
structure Twist where
  lin : Vec3
  ang : Vec3

/-- The constant `desired_orientation = np.array([0, 1, 0, 0])` stored by
every trajectory constructor (gripper pointing down). -/
def desired_orientation : Quat := ![0, 1, 0, 0]

/-- Source: `LinearTrajectory(start_position, goal_position, total_time)`: the
constructor stores exactly these three parameters (`create_route` also
stores derived quantities, modelled below as functions of the
parameters). -/
structure LinearTrajectory where
  start_position : Vec3
  goal_position : Vec3
  total_time : ℝ

namespace LinearTrajectory

/-- Source: `self.distance = self.goal_position - self.start_position`. -/
def distance (tr : LinearTrajectory) : Vec3 :=
  tr.goal_position - tr.start_position

/-- Source: `self.acceleration = (self.distance * 4.0) / (self.total_time ** 2)`. -/
def acceleration (tr : LinearTrajectory) : Vec3 :=
  (4 / tr.total_time ^ 2) • tr.distance

/-- Source: `self.v_max = (self.total_time / 2.0) * self.acceleration`. -/
def v_max (tr : LinearTrajectory) : Vec3 :=
  (tr.total_time / 2) • tr.acceleration

/-- The position computed by `LinearTrajectory.target_pose`:
first half `start + 0.5*acceleration*time**2`, second half
`first_half + v_max*time_remaining - 0.5*acceleration*time_remaining**2`. -/
def posAt (tr : LinearTrajectory) (time : ℝ) : Vec3 :=
  if time ≤ tr.total_time / 2 then
    tr.start_position + (0.5 * time ^ 2) • tr.acceleration
  else
    (tr.start_position + (0.5 * (tr.total_time / 2) ^ 2) • tr.acceleration) +
      ((time - tr.total_time / 2) • tr.v_max -
        (0.5 * (time - tr.total_time / 2) ^ 2) • tr.acceleration)

/-- Source: `LinearTrajectory.target_pose`: `np.hstack((pos, desired_orientation))`. -/
def target_pose (tr : LinearTrajectory) (time : ℝ) : Pose :=
  ⟨tr.posAt time, desired_orientation⟩

/-- The linear velocity computed by `LinearTrajectory.target_velocity`:
first half `acceleration * time`, second half
`v_max - acceleration * (time - total_time/2)`. -/
def velAt (tr : LinearTrajectory) (time : ℝ) : Vec3 :=
  if time ≤ tr.total_time / 2 then
    time • tr.acceleration
  else
    tr.v_max - (time - tr.total_time / 2) • tr.acceleration

/-- Source: `LinearTrajectory.target_velocity`:
`np.hstack((linear_vel, np.zeros(3)))`. -/
def target_velocity (tr : LinearTrajectory) (time : ℝ) : Twist :=
  ⟨tr.velAt time, 0⟩

end LinearTrajectory

/-- Source: `CircularTrajectory(center_position, radius, total_time)`: the
constructor stores exactly these three parameters. -/
structure CircularTrajectory where
  center_position : Vec3
  radius : ℝ
  total_time : ℝ

namespace CircularTrajectory

/-- Source: `self.angular_acceleration = (2 * np.pi * 4.0) / (self.total_time ** 2)`. -/
def angular_acceleration (tr : CircularTrajectory) : ℝ :=
  2 * Real.pi * 4 / tr.total_time ^ 2

/-- Source: `self.angular_v_max = (self.total_time / 2.0) * self.angular_acceleration`. -/
def angular_v_max (tr : CircularTrajectory) : ℝ :=
  tr.total_time / 2 * tr.angular_acceleration

/-- The angle computed identically inside `target_pose` and
`target_velocity`: first half `0.5*angular_acceleration*time**2`, second
half `pi + angular_v_max*time_left - 0.5*angular_acceleration*time_left**2`. -/
def theta (tr : CircularTrajectory) (time : ℝ) : ℝ :=
  if time ≤ tr.total_time / 2 then
    0.5 * tr.angular_acceleration * time ^ 2
  else
    Real.pi + tr.angular_v_max * (time - tr.total_time / 2) -
      0.5 * tr.angular_acceleration * (time - tr.total_time / 2) ^ 2

/-- The angular rate computed inside `target_velocity`: first half
`angular_acceleration * time`, second half
`angular_v_max - angular_acceleration * time_remaining`. -/
def theta_dot (tr : CircularTrajectory) (time : ℝ) : ℝ :=
  if time ≤ tr.total_time / 2 then
    tr.angular_acceleration * time
  else
    tr.angular_v_max - tr.angular_acceleration * (time - tr.total_time / 2)

/-- Source: `CircularTrajectory.target_pose`:
`pos_d = center_position + radius * [cos(theta), sin(theta), 0]`,
orientation as always `desired_orientation`. -/
def target_pose (tr : CircularTrajectory) (time : ℝ) : Pose :=
  ⟨tr.center_position +
    tr.radius • ![Real.cos (tr.theta time), Real.sin (tr.theta time), 0],
    desired_orientation⟩

/-- Source: `CircularTrajectory.target_velocity`:
`vel_d = radius * theta_dot * [-sin(theta), cos(theta), 0]`, angular part
`np.zeros(3)`. -/
def target_velocity (tr : CircularTrajectory) (time : ℝ) : Twist :=
  ⟨(tr.radius * tr.theta_dot time) •
    ![-Real.sin (tr.theta time), Real.cos (tr.theta time), 0], 0⟩

end CircularTrajectory

/-- The state produced by `PolygonalTrajectory.__init__`: the
`self.trajectories` list always holds exactly four `LinearTrajectory`
segments (the constructor loop runs `for i in range(4)`), modelled as
four named fields. -/
structure PolygonalTrajectory where
  total_time : ℝ
  seg0 : LinearTrajectory
  seg1 : LinearTrajectory
  seg2 : LinearTrajectory
  seg3 : LinearTrajectory

namespace PolygonalTrajectory

/-- Source: `self.trajectories[i]` for `i` in `range(4)`. -/
def segment (tr : PolygonalTrajectory) (i : Nat) : LinearTrajectory :=
  match i with
  | 0 => tr.seg0
  | 1 => tr.seg1
  | 2 => tr.seg2
  | _ => tr.seg3

/-- The selection loop shared by `target_pose` and `target_velocity`:
`trajectory = self.trajectories[0]`, then
`for i in range(4): if time <= (i+1)*self.total_time/4: trajectory =
self.trajectories[i]; break` — unrolled: the first index `i` with
`time ≤ (i+1)*total_time/4` is selected, defaulting to index 0 when no
condition holds. -/
def selectedIndex (tr : PolygonalTrajectory) (time : ℝ) : Nat :=
  if time ≤ 1 * tr.total_time / 4 then 0
  else if time ≤ 2 * tr.total_time / 4 then 1
  else if time ≤ 3 * tr.total_time / 4 then 2
  else if time ≤ 4 * tr.total_time / 4 then 3
  else 0

/-- Source: `PolygonalTrajectory.target_pose`: select a segment, then
`return trajectory.target_pose(time/4)`. -/
def target_pose (tr : PolygonalTrajectory) (time : ℝ) : Pose :=
  (tr.segment (tr.selectedIndex time)).target_pose (time / 4)

/-- Source: `PolygonalTrajectory.target_velocity`: select a segment, then
`return trajectory.target_velocity(time/4)`. -/
def target_velocity (tr : PolygonalTrajectory) (time : ℝ) : Twist :=
  (tr.segment (tr.selectedIndex time)).target_velocity (time / 4)

end PolygonalTrajectory

/-- The kinds of exception the constructors can raise (none of them
intentional validation): a Python `IndexError` from `points[i]` in
`PolygonalTrajectory.__init__`, and a Python `ZeroDivisionError` from
the plain-float division `(2 * np.pi * 4.0) / (self.total_time ** 2)`
in `CircularTrajectory.__init__` when `total_time` is zero. -/
inductive ConstructError where
  | indexError (i : Nat)
  | zeroDivisionError
deriving DecidableEq

/-- Source: `LinearTrajectory.__init__`: stores the parameters and derived
quantities and cannot raise: no validation is performed on any input,
and the one division, `(self.distance * 4.0) / (self.total_time ** 2)`,
has a numpy-array numerator, so even a zero duration only produces a
runtime warning and an inf/nan array, never an exception. -/
def mkLinear (start_position goal_position : Vec3) (total_time : ℝ) :
    Except ConstructError LinearTrajectory :=
  Except.ok ⟨start_position, goal_position, total_time⟩

/-- Source: `CircularTrajectory.__init__`: performs no validation, but
computes `(2 * np.pi * 4.0) / (self.total_time ** 2)` whose numerator is
a plain Python float, so at `total_time = 0` the division raises
`ZeroDivisionError`; for every other duration construction succeeds. -/
def mkCircular (center_position : Vec3) (radius total_time : ℝ) :
    Except ConstructError CircularTrajectory :=
  if total_time ^ 2 = 0 then Except.error ConstructError.zeroDivisionError
  else Except.ok ⟨center_position, radius, total_time⟩

/-- Python list indexing `points[i]`, raising `IndexError` when the index
is out of range. -/
def getPoint (points : List Vec3) (i : Nat) : Except ConstructError Vec3 :=
  match points.get? i with
  | some p => Except.ok p
  | none => Except.error (ConstructError.indexError i)

/-- Source: `PolygonalTrajectory.__init__(start_position, ar_position, points,
total_time)`: the loop `for i in range(4)` unrolled.  Each iteration
reads `points[i]`, sets `target_position = ar_position + points[i]`,
appends `LinearTrajectory(current_position, target_position,
total_time/4)` and advances `current_position`. -/
def mkPolygonal (start_position ar_position : Vec3) (points : List Vec3)
    (total_time : ℝ) : Except ConstructError PolygonalTrajectory := do
  let p0 ← getPoint points 0
  let t0 := ar_position + p0
  let p1 ← getPoint points 1
  let t1 := ar_position + p1
  let p2 ← getPoint points 2
  let t2 := ar_position + p2
  let p3 ← getPoint points 3
  let t3 := ar_position + p3
  Except.ok ⟨total_time,
    ⟨start_position, t0, total_time / 4⟩,
    ⟨t0, t1, total_time / 4⟩,
    ⟨t1, t2, total_time / 4⟩,
    ⟨t2, t3, total_time / 4⟩⟩

/-! ## Claim theorems -/

/-- C4: for every `LinearTrajectory` with `total_time > 0`, the position
part of `target_pose(0)` equals `start_position` and the position part of
`target_pose(total_time)` equals `goal_position`. -/
theorem C4_linear_endpoints (tr : LinearTrajectory) (hT : 0 < tr.total_time) :
    (tr.target_pose 0).pos = tr.start_position ∧
    (tr.target_pose tr.total_time).pos = tr.goal_position := by
  constructor
  · show tr.posAt 0 = tr.start_position
    unfold LinearTrajectory.posAt
    rw [if_pos (by linarith)]
    norm_num
  · show tr.posAt tr.total_time = tr.goal_position
    unfold LinearTrajectory.posAt
    rw [if_neg (by intro h; linarith)]
    unfold LinearTrajectory.v_max LinearTrajectory.acceleration
      LinearTrajectory.distance
    funext i
    simp only [Pi.add_apply, Pi.sub_apply, Pi.smul_apply, smul_eq_mul]
    field_simp
    ring

/-- Witness for C4 at `start = 0`, `goal = (1,0,0)`, `total_time = 2`. -/
theorem C4_linear_endpoints_witness :
    ((LinearTrajectory.mk ![0, 0, 0] ![1, 0, 0] 2).target_pose 0).pos
        = ![0, 0, 0] ∧
    ((LinearTrajectory.mk ![0, 0, 0] ![1, 0, 0] 2).target_pose 2).pos
        = ![1, 0, 0] :=
  C4_linear_endpoints (LinearTrajectory.mk ![0, 0, 0] ![1, 0, 0] 2)
    (by norm_num)

/-- C5: for every `CircularTrajectory` with `total_time > 0`, the position
parts of `target_pose(0)` and `target_pose(total_time)` both equal
`center + radius • (1,0,0)`: the traversed angle at `t = total_time` is
exactly `2π`. -/
theorem C5_circular_full_revolution (tr : CircularTrajectory)
    (hT : 0 < tr.total_time) :
    tr.theta tr.total_time = 2 * Real.pi ∧
    (tr.target_pose 0).pos = tr.center_position + tr.radius • ![1, 0, 0] ∧
    (tr.target_pose tr.total_time).pos
      = tr.center_position + tr.radius • ![1, 0, 0] := by
  have h0 : tr.theta 0 = 0 := by
    unfold CircularTrajectory.theta
    rw [if_pos (by linarith)]
    ring
  have h2 : tr.theta tr.total_time = 2 * Real.pi := by
    unfold CircularTrajectory.theta CircularTrajectory.angular_v_max
      CircularTrajectory.angular_acceleration
    rw [if_neg (by intro h; linarith)]
    field_simp
    ring
  refine ⟨h2, ?_, ?_⟩
  · show tr.center_position +
        tr.radius • ![Real.cos (tr.theta 0), Real.sin (tr.theta 0), 0] = _
    rw [h0, Real.cos_zero, Real.sin_zero]
  · show tr.center_position +
        tr.radius • ![Real.cos (tr.theta tr.total_time),
          Real.sin (tr.theta tr.total_time), 0] = _
    rw [h2, Real.cos_two_pi, Real.sin_two_pi]

/-- Witness for C5 at `center = (0,0,0.3)`, `radius = 0.1`,
`total_time = 7` (the spec's own example scenario). -/
theorem C5_circular_full_revolution_witness :
    ((CircularTrajectory.mk ![0, 0, 0.3] 0.1 7).target_pose 0).pos
      = ![0, 0, 0.3] + (0.1 : ℝ) • ![1, 0, 0] :=
  (C5_circular_full_revolution (CircularTrajectory.mk ![0, 0, 0.3] 0.1 7)
    (by norm_num)).2.1

/-- C6: for every `LinearTrajectory` and every `CircularTrajectory` with
`total_time > 0`, `target_velocity(0)` and `target_velocity(total_time)`
are both the zero 6-vector (rest-to-rest motion). -/
theorem C6_rest_to_rest :
    (∀ tr : LinearTrajectory, 0 < tr.total_time →
      tr.target_velocity 0 = ⟨0, 0⟩ ∧
      tr.target_velocity tr.total_time = ⟨0, 0⟩) ∧
    (∀ tr : CircularTrajectory, 0 < tr.total_time →
      tr.target_velocity 0 = ⟨0, 0⟩ ∧
      tr.target_velocity tr.total_time = ⟨0, 0⟩) := by
  constructor
  · intro tr hT
    constructor
    · show (⟨tr.velAt 0, 0⟩ : Twist) = ⟨0, 0⟩
      unfold LinearTrajectory.velAt
      rw [if_pos (by linarith)]
      simp
    · show (⟨tr.velAt tr.total_time, 0⟩ : Twist) = ⟨0, 0⟩
      unfold LinearTrajectory.velAt
      rw [if_neg (by intro h; linarith)]
      unfold LinearTrajectory.v_max
      congr 1
      funext i
      simp only [Pi.sub_apply, Pi.smul_apply, smul_eq_mul, Pi.zero_apply]
      ring
  · intro tr hT
    have h0 : tr.theta_dot 0 = 0 := by
      unfold CircularTrajectory.theta_dot
      rw [if_pos (by linarith)]
      ring
    have h1 : tr.theta_dot tr.total_time = 0 := by
      unfold CircularTrajectory.theta_dot CircularTrajectory.angular_v_max
      rw [if_neg (by intro h; linarith)]
      ring
    constructor
    · show (⟨(tr.radius * tr.theta_dot 0) • _, 0⟩ : Twist) = ⟨0, 0⟩
      rw [h0]
      simp
    · show (⟨(tr.radius * tr.theta_dot tr.total_time) • _, 0⟩ : Twist)
          = ⟨0, 0⟩
      rw [h1]
      simp

/-- Witness for C6: a concrete linear and circular trajectory. -/
theorem C6_rest_to_rest_witness :
    (LinearTrajectory.mk ![0, 0, 0] ![1, 0, 0] 2).target_velocity 0
        = ⟨0, 0⟩ ∧
    (CircularTrajectory.mk ![0, 0, 0.3] 0.1 7).target_velocity 7
        = ⟨0, 0⟩ :=
  ⟨(C6_rest_to_rest.1 (LinearTrajectory.mk ![0, 0, 0] ![1, 0, 0] 2)
      (by norm_num)).1,
   (C6_rest_to_rest.2 (CircularTrajectory.mk ![0, 0, 0.3] 0.1 7)
      (by norm_num)).2⟩

/-- C7: for every `LinearTrajectory` and `CircularTrajectory` with
`total_time > 0`, the velocity is continuous at the midpoint: the
acceleration-branch formula and the deceleration-branch formula both
evaluate to the peak velocity `v_max` (resp. `angular_v_max`) at
`t = total_time/2`, and the piecewise velocity function is continuous
there. -/
theorem C7_midpoint_continuity :
    (∀ tr : LinearTrajectory, 0 < tr.total_time →
      (tr.total_time / 2) • tr.acceleration = tr.v_max ∧
      tr.v_max - (tr.total_time / 2 - tr.total_time / 2) • tr.acceleration
        = tr.v_max ∧
      tr.velAt (tr.total_time / 2) = tr.v_max ∧
      ContinuousAt tr.velAt (tr.total_time / 2)) ∧
    (∀ tr : CircularTrajectory, 0 < tr.total_time →
      tr.angular_acceleration * (tr.total_time / 2) = tr.angular_v_max ∧
      tr.angular_v_max -
          tr.angular_acceleration * (tr.total_time / 2 - tr.total_time / 2)
        = tr.angular_v_max ∧
      tr.theta_dot (tr.total_time / 2) = tr.angular_v_max ∧
      ContinuousAt tr.theta_dot (tr.total_time / 2)) := by
  constructor
  · intro tr hT
    have hpeak : (tr.total_time / 2) • tr.acceleration = tr.v_max := rfl
    refine ⟨hpeak, by rw [sub_self, zero_smul, sub_zero], ?_, ?_⟩
    · unfold LinearTrajectory.velAt
      rw [if_pos le_rfl]
      exact hpeak
    · have hcont : Continuous tr.velAt := by
        unfold LinearTrajectory.velAt
        apply Continuous.if_le
          (continuous_id.smul continuous_const)
          (continuous_const.sub
            ((continuous_id.sub continuous_const).smul continuous_const))
          continuous_id continuous_const
        intro x hx
        rw [hx, sub_self, zero_smul, sub_zero]
        exact hpeak
      exact hcont.continuousAt
  · intro tr hT
    have hpeak : tr.angular_acceleration * (tr.total_time / 2)
        = tr.angular_v_max := by
      unfold CircularTrajectory.angular_v_max
      ring
    refine ⟨hpeak, by rw [sub_self, mul_zero, sub_zero], ?_, ?_⟩
    · unfold CircularTrajectory.theta_dot
      rw [if_pos le_rfl]
      exact hpeak
    · have hcont : Continuous tr.theta_dot := by
        unfold CircularTrajectory.theta_dot
        apply Continuous.if_le
          (continuous_const.mul continuous_id)
          (continuous_const.sub
            (continuous_const.mul (continuous_id.sub continuous_const)))
          continuous_id continuous_const
        intro x hx
        rw [hx, sub_self, mul_zero, sub_zero]
        exact hpeak
      exact hcont.continuousAt

/-- Witness for C7 at concrete linear and circular trajectories. -/
theorem C7_midpoint_continuity_witness :
    (LinearTrajectory.mk ![0, 0, 0] ![1, 0, 0] 2).velAt (2 / 2)
        = (LinearTrajectory.mk ![0, 0, 0] ![1, 0, 0] 2).v_max ∧
    (CircularTrajectory.mk ![0, 0, 0.3] 0.1 7).theta_dot (7 / 2)
        = (CircularTrajectory.mk ![0, 0, 0.3] 0.1 7).angular_v_max :=
  ⟨(C7_midpoint_continuity.1 (LinearTrajectory.mk ![0, 0, 0] ![1, 0, 0] 2)
      (by norm_num)).2.2.1,
   (C7_midpoint_continuity.2 (CircularTrajectory.mk ![0, 0, 0.3] 0.1 7)
      (by norm_num)).2.2.1⟩

/-- A concrete polygonal trajectory (total duration 4, first segment from
the origin to `(1,0,0)`, remaining segments stationary at `(1,0,0)`),
used by several witnesses. -/
def samplePoly : PolygonalTrajectory :=
  ⟨4, ⟨![0, 0, 0], ![1, 0, 0], 1⟩, ⟨![1, 0, 0], ![1, 0, 0], 1⟩,
    ⟨![1, 0, 0], ![1, 0, 0], 1⟩, ⟨![1, 0, 0], ![1, 0, 0], 1⟩⟩

/-- C1: for every `PolygonalTrajectory` with duration `T > 0` and every
`t ∈ [0, T]`, both `target_pose` and `target_velocity` select the segment
with the smallest index `i` such that `t ≤ (i+1)*T/4` (`t = T` resolving
to the last segment, index 3) and delegate to that segment queried at the
rescaled time `t/4`. -/
theorem C1_polygonal_selection (tr : PolygonalTrajectory)
    (hT : 0 < tr.total_time) (t : ℝ) (_h0 : 0 ≤ t)
    (h1 : t ≤ tr.total_time) :
    tr.selectedIndex t ≤ 3 ∧
    t ≤ ((tr.selectedIndex t : ℝ) + 1) * tr.total_time / 4 ∧
    (∀ j : ℕ, j < tr.selectedIndex t →
      ((j : ℝ) + 1) * tr.total_time / 4 < t) ∧
    (t = tr.total_time → tr.selectedIndex t = 3) ∧
    tr.target_pose t = (tr.segment (tr.selectedIndex t)).target_pose (t / 4) ∧
    tr.target_velocity t
      = (tr.segment (tr.selectedIndex t)).target_velocity (t / 4) := by
  have key : tr.selectedIndex t ≤ 3 ∧
      t ≤ ((tr.selectedIndex t : ℝ) + 1) * tr.total_time / 4 ∧
      (∀ j : ℕ, j < tr.selectedIndex t →
        ((j : ℝ) + 1) * tr.total_time / 4 < t) ∧
      (t = tr.total_time → tr.selectedIndex t = 3) := by
    unfold PolygonalTrajectory.selectedIndex
    split_ifs with ha hb hc hd
    · refine ⟨by norm_num, by push_cast; linarith, ?_, ?_⟩
      · intro j hj
        omega
      · intro ht
        exfalso
        rw [ht] at ha
        linarith
    · push_neg at ha
      refine ⟨by norm_num, by push_cast; linarith, ?_, ?_⟩
      · intro j hj
        interval_cases j
        push_cast
        linarith
      · intro ht
        exfalso
        rw [ht] at hb
        linarith
    · push_neg at ha hb
      refine ⟨by norm_num, by push_cast; linarith, ?_, ?_⟩
      · intro j hj
        interval_cases j <;> push_cast <;> linarith
      · intro ht
        exfalso
        rw [ht] at hc
        linarith
    · push_neg at ha hb hc
      refine ⟨le_rfl, by push_cast; linarith, ?_, fun _ => rfl⟩
      intro j hj
      interval_cases j <;> push_cast <;> linarith
    · exfalso
      push_neg at hd
      linarith
  exact ⟨key.1, key.2.1, key.2.2.1, key.2.2.2, rfl, rfl⟩

/-- Witness for C1: `samplePoly` (duration 4) queried at `t = 2`. -/
theorem C1_polygonal_selection_witness :
    samplePoly.selectedIndex 2 ≤ 3 ∧
    (2 : ℝ) ≤ ((samplePoly.selectedIndex 2 : ℝ) + 1) *
      samplePoly.total_time / 4 ∧
    (∀ j : ℕ, j < samplePoly.selectedIndex 2 →
      ((j : ℝ) + 1) * samplePoly.total_time / 4 < 2) ∧
    ((2 : ℝ) = samplePoly.total_time → samplePoly.selectedIndex 2 = 3) ∧
    samplePoly.target_pose 2
      = (samplePoly.segment (samplePoly.selectedIndex 2)).target_pose
          (2 / 4) ∧
    samplePoly.target_velocity 2
      = (samplePoly.segment (samplePoly.selectedIndex 2)).target_velocity
          (2 / 4) :=
  C1_polygonal_selection samplePoly (by norm_num [samplePoly]) 2
    (by norm_num) (by norm_num [samplePoly])

/-- C9: for every `PolygonalTrajectory` with duration `T > 0` and every
`t > T`, no condition of the selection loop matches, so both queries fall
back to the loop's default: the FIRST segment (index 0), evaluated at
`t/4`, without any error. -/
theorem C9_polygonal_overrun_defaults_to_first (tr : PolygonalTrajectory)
    (hT : 0 < tr.total_time) (t : ℝ) (ht : tr.total_time < t) :
    tr.selectedIndex t = 0 ∧
    tr.target_pose t = tr.seg0.target_pose (t / 4) ∧
    tr.target_velocity t = tr.seg0.target_velocity (t / 4) := by
  have h : tr.selectedIndex t = 0 := by
    unfold PolygonalTrajectory.selectedIndex
    split_ifs with h1 h2 h3 h4 <;> first | rfl | (exfalso; linarith)
  refine ⟨h, ?_, ?_⟩
  · show (tr.segment (tr.selectedIndex t)).target_pose (t / 4) = _
    rw [h]
    rfl
  · show (tr.segment (tr.selectedIndex t)).target_velocity (t / 4) = _
    rw [h]
    rfl

/-- Witness for C9: `samplePoly` (duration 4) queried at `t = 5`. -/
theorem C9_polygonal_overrun_witness :
    samplePoly.selectedIndex 5 = 0 ∧
    samplePoly.target_pose 5 = samplePoly.seg0.target_pose (5 / 4) ∧
    samplePoly.target_velocity 5
      = samplePoly.seg0.target_velocity (5 / 4) :=
  C9_polygonal_overrun_defaults_to_first samplePoly
    (by norm_num [samplePoly]) 5 (by norm_num [samplePoly])

/-- C10: the polygonal constructor reads exactly the first four entries
of `points`, building four chained segments of duration `total_time/4`
with goals `ar_position + points[i]` (segment 0 starting at
`start_position`, each later segment starting at the previous goal);
fewer than four points make construction fail with an index error at the
first out-of-range index (`points.length`), and entries beyond the
fourth are ignored. -/
theorem C10_polygonal_constructor (start_position ar_position : Vec3)
    (points : List Vec3) (total_time : ℝ) :
    (4 ≤ points.length →
      mkPolygonal start_position ar_position points total_time =
        Except.ok ⟨total_time,
          ⟨start_position, ar_position + points.getD 0 0, total_time / 4⟩,
          ⟨ar_position + points.getD 0 0, ar_position + points.getD 1 0,
            total_time / 4⟩,
          ⟨ar_position + points.getD 1 0, ar_position + points.getD 2 0,
            total_time / 4⟩,
          ⟨ar_position + points.getD 2 0, ar_position + points.getD 3 0,
            total_time / 4⟩⟩) ∧
    (points.length < 4 →
      mkPolygonal start_position ar_position points total_time =
        Except.error (ConstructError.indexError points.length)) ∧
    (∀ extra : List Vec3, 4 ≤ points.length →
      mkPolygonal start_position ar_position (points ++ extra) total_time =
        mkPolygonal start_position ar_position points total_time) := by
  rcases points with _ | ⟨p0, _ | ⟨p1, _ | ⟨p2, _ | ⟨p3, rest⟩⟩⟩⟩
  · exact ⟨fun h => by simp at h, fun _ => rfl, fun extra h => by simp at h⟩
  · exact ⟨fun h => by simp at h, fun _ => rfl, fun extra h => by simp at h⟩
  · exact ⟨fun h => by simp at h, fun _ => rfl, fun extra h => by simp at h⟩
  · exact ⟨fun h => by simp at h, fun _ => rfl, fun extra h => by simp at h⟩
  · refine ⟨fun _ => rfl, fun h => ?_, fun extra _ => rfl⟩
    simp at h
    omega

/-- Witness for C10: a one-point list fails with an index error at
index 1. -/
theorem C10_polygonal_constructor_witness :
    mkPolygonal ![0, 0, 0] ![0, 0, 0] [![1, 0, 0]] 4 =
      Except.error (ConstructError.indexError 1) :=
  (C10_polygonal_constructor ![0, 0, 0] ![0, 0, 0] [![1, 0, 0]] 4).2.1
    (by simp)

/-- Counterexample to C2: the claim asserts that construction with a
total duration `≤ 0` fails with `InvalidParameter`; in the code no
constructor validates anything, and `LinearTrajectory.__init__` with
`total_time = -1` returns a trajectory object normally instead of
raising. -/
theorem C2_counterexample :
    mkLinear ![0, 0, 0] ![1, 0, 0] (-1) =
      Except.ok ⟨![0, 0, 0], ![1, 0, 0], -1⟩ := rfl

/-- Whether a modelled constructor call returned normally. -/
def constructed {α : Type} (e : Except ConstructError α) : Bool :=
  match e with
  | Except.ok _ => true
  | Except.error _ => false

/-- C2 amended: no duration validation exists and no `InvalidParameter`
error exists in the code.  Construction with `total_time ≤ 0` succeeds
for the linear variant (numpy-array division only warns) and for the
polygonal variant whenever the points list has at least four entries;
the circular variant succeeds for every `total_time < 0` but fails at
`total_time = 0` with a `ZeroDivisionError` (a slip of the float
arithmetic, not validation).  Queries are total functions that never
raise. -/
theorem C2_amended_no_validation :
    (∀ (s g : Vec3) (T : ℝ), T ≤ 0 → constructed (mkLinear s g T) = true) ∧
    (∀ (c : Vec3) (r T : ℝ), T < 0 →
      constructed (mkCircular c r T) = true) ∧
    (∀ (c : Vec3) (r : ℝ),
      mkCircular c r 0 = Except.error ConstructError.zeroDivisionError) ∧
    (∀ (s a : Vec3) (pts : List Vec3) (T : ℝ), T ≤ 0 → 4 ≤ pts.length →
      constructed (mkPolygonal s a pts T) = true) := by
  refine ⟨fun _ _ _ _ => rfl, ?_, ?_, ?_⟩
  · intro c r T hT
    unfold mkCircular
    rw [if_neg (pow_ne_zero 2 hT.ne)]
    rfl
  · intro c r
    unfold mkCircular
    rw [if_pos (by norm_num)]
  · intro s a pts T _ h
    rcases pts with _ | ⟨p0, _ | ⟨p1, _ | ⟨p2, _ | ⟨p3, rest⟩⟩⟩⟩ <;>
      first | rfl | (simp at h)

/-- Witness for the amended C2: linear and circular construction at
duration `-1` succeed, circular construction at duration `0` raises the
zero-division error. -/
theorem C2_amended_no_validation_witness :
    constructed (mkLinear ![0, 0, 0] ![1, 0, 0] (-1)) = true ∧
    constructed (mkCircular ![0, 0, 0] 1 (-1)) = true ∧
    mkCircular ![0, 0, 0] 1 0
      = Except.error ConstructError.zeroDivisionError :=
  ⟨C2_amended_no_validation.1 ![0, 0, 0] ![1, 0, 0] (-1) (by norm_num),
   C2_amended_no_validation.2.1 ![0, 0, 0] 1 (-1) (by norm_num),
   C2_amended_no_validation.2.2.1 ![0, 0, 0] 1⟩

/-- C8: for every trajectory variant and every query time, the
orientation component of `target_pose` is the fixed gripper-down
quaternion `[0, 1, 0, 0]` and the angular part of the twist returned by
`target_velocity` is exactly zero. -/
theorem C8_orientation_and_angular_invariant :
    (∀ (tr : LinearTrajectory) (time : ℝ),
      (tr.target_pose time).ori = ![0, 1, 0, 0] ∧
      (tr.target_velocity time).ang = 0) ∧
    (∀ (tr : CircularTrajectory) (time : ℝ),
      (tr.target_pose time).ori = ![0, 1, 0, 0] ∧
      (tr.target_velocity time).ang = 0) ∧
    (∀ (tr : PolygonalTrajectory) (time : ℝ),
      (tr.target_pose time).ori = ![0, 1, 0, 0] ∧
      (tr.target_velocity time).ang = 0) :=
  ⟨fun _ _ => ⟨rfl, rfl⟩, fun _ _ => ⟨rfl, rfl⟩, fun _ _ => ⟨rfl, rfl⟩⟩

/-! ## Derivative consistency (C3) -/

/-- Derivative of a function glued by `if · ≤ m` from two branches that
agree at the junction point. -/
theorem hasDerivAt_if_le {F : Type*} [NormedAddCommGroup F]
    [NormedSpace ℝ F] {a b : ℝ → F} {v : F} {m t : ℝ}
    (ha : t ≤ m → HasDerivAt a v t) (hb : m ≤ t → HasDerivAt b v t)
    (heq : a m = b m) :
    HasDerivAt (fun s => if s ≤ m then a s else b s) v t := by
  rcases lt_trichotomy t m with h | h | h
  · apply HasDerivAt.congr_of_eventuallyEq (ha h.le)
    filter_upwards [Iio_mem_nhds h] with s hs
    rw [if_pos (le_of_lt hs)]
  · subst h
    have h1 : HasDerivWithinAt (fun s => if s ≤ t then a s else b s) v
        (Set.Iic t) t := by
      apply HasDerivWithinAt.congr ((ha le_rfl).hasDerivWithinAt)
      · intro y hy
        rw [if_pos (Set.mem_Iic.mp hy)]
      · rw [if_pos le_rfl]
    have h2 : HasDerivWithinAt (fun s => if s ≤ t then a s else b s) v
        (Set.Ici t) t := by
      apply HasDerivWithinAt.congr ((hb le_rfl).hasDerivWithinAt)
      · intro y hy
        rcases eq_or_lt_of_le (Set.mem_Ici.mp hy) with hy' | hy'
        · rw [← hy', if_pos le_rfl]
          exact heq
        · rw [if_neg (not_le.mpr hy')]
      · rw [if_pos le_rfl]
        exact heq
    have h3 := h1.union h2
    rw [Set.Iic_union_Ici] at h3
    exact hasDerivWithinAt_univ.mp h3
  · apply HasDerivAt.congr_of_eventuallyEq (hb h.le)
    filter_upwards [Ioi_mem_nhds h] with s hs
    rw [if_neg (not_le.mpr hs)]

/-- The position of a `LinearTrajectory` is differentiable at every
time, with derivative the linear velocity reported by
`target_velocity` (the two quadratic branches share value and slope at
the midpoint). -/
theorem LinearTrajectory.hasDerivAt_posAt (tr : LinearTrajectory)
    (t : ℝ) : HasDerivAt tr.posAt (tr.velAt t) t := by
  unfold LinearTrajectory.posAt
  apply hasDerivAt_if_le
  · intro h
    have hv : tr.velAt t = t • tr.acceleration := by
      unfold LinearTrajectory.velAt
      rw [if_pos h]
    rw [hv]
    have hs : HasDerivAt (fun s : ℝ => 0.5 * s ^ 2) t t := by
      have h2 := (hasDerivAt_pow 2 t).const_mul (0.5 : ℝ)
      convert h2 using 1
      push_cast
      ring
    exact (hs.smul_const tr.acceleration).const_add tr.start_position
  · intro h
    have hv : tr.velAt t
        = tr.v_max - (t - tr.total_time / 2) • tr.acceleration := by
      unfold LinearTrajectory.velAt
      rcases eq_or_lt_of_le h with h' | h'
      · rw [if_pos h'.symm.le, ← h', sub_self, zero_smul, sub_zero]
        rfl
      · rw [if_neg (not_le.mpr h')]
    rw [hv]
    have h1 : HasDerivAt (fun s : ℝ => s - tr.total_time / 2) 1 t :=
      (hasDerivAt_id t).sub_const _
    have h2 : HasDerivAt
        (fun s : ℝ => (s - tr.total_time / 2) • tr.v_max) tr.v_max t := by
      have := h1.smul_const tr.v_max
      rwa [one_smul] at this
    have h3 : HasDerivAt
        (fun s : ℝ => 0.5 * (s - tr.total_time / 2) ^ 2)
        (t - tr.total_time / 2) t := by
      have hp := (h1.pow 2).const_mul (0.5 : ℝ)
      convert hp using 1
      push_cast
      ring
    exact ((h2.sub (h3.smul_const tr.acceleration)).const_add
      (tr.start_position + (0.5 * (tr.total_time / 2) ^ 2) • tr.acceleration))
  · simp only [sub_self, zero_smul, sub_zero]
    norm_num

/-- The angle profile of a `CircularTrajectory` is differentiable at
every time, with derivative `theta_dot` (for a nonzero duration the two
branches meet at angle `π` with slope `angular_v_max`). -/
theorem CircularTrajectory.hasDerivAt_theta (tr : CircularTrajectory)
    (hT : tr.total_time ≠ 0) (t : ℝ) :
    HasDerivAt tr.theta (tr.theta_dot t) t := by
  unfold CircularTrajectory.theta
  apply hasDerivAt_if_le
  · intro h
    have hv : tr.theta_dot t = tr.angular_acceleration * t := by
      unfold CircularTrajectory.theta_dot
      rw [if_pos h]
    rw [hv]
    have h2 := (hasDerivAt_pow 2 t).const_mul
      (0.5 * tr.angular_acceleration)
    convert h2 using 1
    push_cast
    ring
  · intro h
    have hv : tr.theta_dot t = tr.angular_v_max -
        tr.angular_acceleration * (t - tr.total_time / 2) := by
      unfold CircularTrajectory.theta_dot
      rcases eq_or_lt_of_le h with h' | h'
      · rw [if_pos h'.symm.le, ← h']
        unfold CircularTrajectory.angular_v_max
        ring
      · rw [if_neg (not_le.mpr h')]
    rw [hv]
    have h1 : HasDerivAt (fun s : ℝ => s - tr.total_time / 2) 1 t :=
      (hasDerivAt_id t).sub_const _
    have h4 := ((h1.const_mul tr.angular_v_max).const_add Real.pi).sub
      ((h1.pow 2).const_mul (0.5 * tr.angular_acceleration))
    convert h4 using 1
    push_cast
    ring
  · unfold CircularTrajectory.angular_v_max
      CircularTrajectory.angular_acceleration
    rw [sub_self]
    field_simp
    ring

/-- The position of a `CircularTrajectory` with nonzero duration is
differentiable at every time, with derivative the linear velocity
reported by `target_velocity`. -/
theorem CircularTrajectory.hasDerivAt_pos (tr : CircularTrajectory)
    (hT : tr.total_time ≠ 0) (t : ℝ) :
    HasDerivAt (fun s => (tr.target_pose s).pos)
      ((tr.target_velocity t).lin) t := by
  have hθ := tr.hasDerivAt_theta hT t
  have hcos : HasDerivAt (fun s => Real.cos (tr.theta s))
      (-Real.sin (tr.theta t) * tr.theta_dot t) t :=
    (Real.hasDerivAt_cos (tr.theta t)).comp t hθ
  have hsin : HasDerivAt (fun s => Real.sin (tr.theta s))
      (Real.cos (tr.theta t) * tr.theta_dot t) t :=
    (Real.hasDerivAt_sin (tr.theta t)).comp t hθ
  show HasDerivAt
    (fun s => tr.center_position +
      tr.radius • ![Real.cos (tr.theta s), Real.sin (tr.theta s), 0])
    ((tr.radius * tr.theta_dot t) •
      ![-Real.sin (tr.theta t), Real.cos (tr.theta t), 0]) t
  have hvec : HasDerivAt
      (fun s => (![Real.cos (tr.theta s), Real.sin (tr.theta s), 0] : Vec3))
      (![-Real.sin (tr.theta t) * tr.theta_dot t,
          Real.cos (tr.theta t) * tr.theta_dot t, 0]) t := by
    rw [hasDerivAt_pi]
    intro i
    fin_cases i
    · simpa using hcos
    · simpa using hsin
    · simpa using hasDerivAt_const t (0 : ℝ)
  have hfull := (hvec.const_smul tr.radius).const_add tr.center_position
  convert hfull using 1
  funext i
  fin_cases i <;>
    simp [Pi.smul_apply, smul_eq_mul] <;>
    ring

/-- Counterexample to C3: for the polygonal trajectory `samplePoly`
(duration 4, first segment from the origin to `(1,0,0)` in one second)
at `t = 1/2`, the position actually has derivative `1/8` in the first
coordinate (the pose is `s²/8` near `s = 1/2` because the segment is
queried at the rescaled time `s/4`), while `target_velocity` reports
`1/2`; so the linear part of `target_velocity` is NOT the time
derivative of the position part. -/
theorem C3_counterexample :
    ¬ HasDerivAt (fun s => (samplePoly.target_pose s).pos 0)
        ((samplePoly.target_velocity (1 / 2)).lin 0) (1 / 2) := by
  intro hcontra
  have hg : HasDerivAt (fun s : ℝ => s ^ 2 / 8) ((1 : ℝ) / 8)
      ((1 : ℝ) / 2) := by
    have hp := (hasDerivAt_pow 2 ((1 : ℝ) / 2)).div_const 8
    convert hp using 1
    norm_num
  have hf : HasDerivAt (fun s => (samplePoly.target_pose s).pos 0)
      ((1 : ℝ) / 8) ((1 : ℝ) / 2) := by
    apply HasDerivAt.congr_of_eventuallyEq hg
    filter_upwards [Iio_mem_nhds (show (1 : ℝ) / 2 < 1 by norm_num)]
      with s hs
    have hs1 : s < 1 := hs
    have hidx : samplePoly.selectedIndex s = 0 := by
      unfold PolygonalTrajectory.selectedIndex
      rw [if_pos]
      show s ≤ 1 * samplePoly.total_time / 4
      have hTT : samplePoly.total_time = 4 := rfl
      rw [hTT]
      linarith
    show ((samplePoly.segment (samplePoly.selectedIndex s)).target_pose
        (s / 4)).pos 0 = s ^ 2 / 8
    rw [hidx]
    show samplePoly.seg0.posAt (s / 4) 0 = s ^ 2 / 8
    unfold LinearTrajectory.posAt
    rw [if_pos]
    · unfold LinearTrajectory.acceleration LinearTrajectory.distance
      simp only [samplePoly, Pi.add_apply, Pi.smul_apply, Pi.sub_apply,
        smul_eq_mul, Matrix.cons_val_zero]
      norm_num
      ring
    · show s / 4 ≤ samplePoly.seg0.total_time / 2
      have hTT : samplePoly.seg0.total_time = 1 := rfl
      rw [hTT]
      linarith
  have huniq := hcontra.unique hf
  have hval : (samplePoly.target_velocity (1 / 2)).lin 0 = 1 / 2 := by
    have hidx : samplePoly.selectedIndex (1 / 2) = 0 := by
      unfold PolygonalTrajectory.selectedIndex
      rw [if_pos]
      show (1 : ℝ) / 2 ≤ 1 * samplePoly.total_time / 4
      have hTT : samplePoly.total_time = 4 := rfl
      rw [hTT]
      norm_num
    show (samplePoly.segment (samplePoly.selectedIndex (1 / 2))).velAt
        (1 / 2 / 4) 0 = 1 / 2
    rw [hidx]
    show samplePoly.seg0.velAt (1 / 2 / 4) 0 = 1 / 2
    unfold LinearTrajectory.velAt
    rw [if_pos]
    · unfold LinearTrajectory.acceleration LinearTrajectory.distance
      simp only [samplePoly, Pi.smul_apply, Pi.sub_apply, smul_eq_mul,
        Matrix.cons_val_zero]
      norm_num
    · show (1 : ℝ) / 2 / 4 ≤ samplePoly.seg0.total_time / 2
      have hTT : samplePoly.seg0.total_time = 1 := rfl
      rw [hTT]
      norm_num
  rw [hval] at huniq
  norm_num at huniq

/-- C3 amended: the derivative-consistency property holds for
`LinearTrajectory` and `CircularTrajectory` (for every `t` in
`(0, total_time)`, the linear part of `target_velocity` is the time
derivative of the position part of `target_pose`), but not for
`PolygonalTrajectory`, whose `t/4` rescaling makes the reported velocity
four times the actual derivative inside a segment. -/
theorem C3_amended_derivative_consistency :
    (∀ tr : LinearTrajectory, 0 < tr.total_time → ∀ t : ℝ, 0 < t →
      t < tr.total_time →
      HasDerivAt (fun s => (tr.target_pose s).pos)
        ((tr.target_velocity t).lin) t) ∧
    (∀ tr : CircularTrajectory, 0 < tr.total_time → ∀ t : ℝ, 0 < t →
      t < tr.total_time →
      HasDerivAt (fun s => (tr.target_pose s).pos)
        ((tr.target_velocity t).lin) t) := by
  constructor
  · intro tr _ t _ _
    exact tr.hasDerivAt_posAt t
  · intro tr hT t _ _
    exact tr.hasDerivAt_pos hT.ne' t

/-- Witness for the amended C3: a concrete linear trajectory at `t = 1`
and a concrete circular trajectory at `t = 1`. -/
theorem C3_amended_derivative_consistency_witness :
    HasDerivAt
      (fun s => ((LinearTrajectory.mk ![0, 0, 0] ![1, 0, 0] 2).target_pose
        s).pos)
      (((LinearTrajectory.mk ![0, 0, 0] ![1, 0, 0] 2).target_velocity
        1).lin) 1 ∧
    HasDerivAt
      (fun s => ((CircularTrajectory.mk ![0, 0, 0.3] 0.1 7).target_pose
        s).pos)
      (((CircularTrajectory.mk ![0, 0, 0.3] 0.1 7).target_velocity
        1).lin) 1 :=
  ⟨C3_amended_derivative_consistency.1
      (LinearTrajectory.mk ![0, 0, 0] ![1, 0, 0] 2) (by norm_num) 1
      (by norm_num) (by norm_num),
   C3_amended_derivative_consistency.2
      (CircularTrajectory.mk ![0, 0, 0.3] 0.1 7) (by norm_num) 1
      (by norm_num) (by norm_num)⟩

end

end VisualServoing
